import Mathlib

/-!
Shallow embedding of the agent control loop in `src/agent.py` (`run_audit`).

Python strings are modelled as lists of characters (`Str`).  The two
external collaborators — the language model (`llm_with_tools.ainvoke`) and
the tool session (`session.call_tool`) — are modelled as oracle functions
on the current message history, collected in `Env`.  Everything else is a
direct transcription of the loop body.
-/

namespace GdprAgent

/-- A Python string, modelled as its list of characters. -/
abbrev Str := List Char

/-- Character list of a string literal. -/
def str (s : String) : Str := s.data

/-- A tool call requested by the model: the dict fields
`tool_call["id"]`, `tool_call["name"]`, `tool_call["args"]` (agent.py
lines 86-88).  Argument values are opaque to the loop. -/
structure ToolCallRequest where
  id : Str
  name : Str
  args : List (Str × Str)
deriving DecidableEq, Repr

/-- A model reply: `response.content` and `response.tool_calls`
(agent.py lines 71-88). -/
structure AssistantReply where
  text : Str
  toolCalls : List ToolCallRequest
deriving DecidableEq, Repr

/-- Entries of the `messages` list (agent.py lines 56-59, 72, 113-117). -/
inductive Message where
  | system (text : Str)
  | human (text : Str)
  | assistant (text : Str) (toolCalls : List ToolCallRequest)
  | toolResult (correlationId : Str) (toolName : Str) (content : Str)
deriving DecidableEq, Repr

/-- One item of `tool_result.content`: either it carries a `.text`
attribute, or it does not (agent.py lines 99-101). -/
inductive ContentItem where
  | textual (t : Str)
  | nonTextual
deriving DecidableEq, Repr

/-- A raw tool result: `none` models an object without a `content`
attribute, `some items` one with it (agent.py line 98, where Python
also treats an empty list as falsy — see `parseContent`). -/
abbrev RawResult := Option (List ContentItem)

/-- `max_iterations = 10` (agent.py line 62). -/
def maxIterations : Nat := 10

/-- The truncation threshold `20000` (agent.py line 106). -/
def truncLimit : Nat := 20000

/-- The fixed truncation marker `"... [Truncated]"` (agent.py line 107). -/
def truncMarker : Str := str "... [Truncated]"

/-- The fixed placeholder for tools with no textual output
(agent.py line 103). -/
def noTextPlaceholder : Str := str "Tool executed (no text output returned)."

/-- The fixed error prefix (agent.py line 110). -/
def errorPrefix : Str := str "Error executing tool: "

/-- The `for item in tool_result.content` loop: concatenate `item.text`
for every item that has a `.text` attribute (agent.py lines 99-101). -/
def concatText : List ContentItem → Str
  | [] => []
  | ContentItem.textual t :: rest => t ++ concatText rest
  | ContentItem.nonTextual :: rest => concatText rest

/-- The textual parts of a raw content list, in order. -/
def textOf : ContentItem → Option Str
  | ContentItem.textual t => some t
  | ContentItem.nonTextual => none

/-- `content_str` as computed from `tool_result` (agent.py lines 97-103):
the concatenation runs only when a `content` attribute exists and the
list is truthy (non-empty); otherwise the placeholder is substituted. -/
def parseContent : RawResult → Str
  | some items => if items.isEmpty then noTextPlaceholder else concatText items
  | none => noTextPlaceholder

/-- The truncation step (agent.py lines 106-107):
`if len(content_str) > 20000: content_str = content_str[:20000] + "... [Truncated]"`. -/
def truncateContent (s : Str) : Str :=
  if truncLimit < s.length then s.take truncLimit ++ truncMarker else s

/-- The `try`/`except` body producing `content_str` for one tool call
(agent.py lines 92-110).  Note the truncation sits inside the `try`
block: an error substitution is never truncated. -/
def processResult : Except Str RawResult → Str
  | Except.ok raw => truncateContent (parseContent raw)
  | Except.error e => errorPrefix ++ e

/-- The external collaborators, as oracles on the current history:
`model` is `llm_with_tools.ainvoke(messages)` and `callTool` is
`session.call_tool(name, args)` (which may raise, hence `Except`). -/
structure Env where
  model : List Message → AssistantReply
  callTool : List Message → ToolCallRequest → Except Str RawResult

/-- The `for tool_call in response.tool_calls` loop (agent.py lines
85-117): execute each requested tool against the history so far and
append the resulting `ToolMessage`. -/
def runToolCalls (env : Env) : List Message → List ToolCallRequest → List Message
  | msgs, [] => msgs
  | msgs, tc :: rest =>
      runToolCalls env
        (msgs ++ [Message.toolResult tc.id tc.name (processResult (env.callTool msgs tc))])
        rest

/-- The state left when the loop has ended: the final `messages` list,
the final value of `iteration`, and the report printed by the `break`
branch (`none` when the loop ended because the guard failed). -/
structure RunResult where
  messages : List Message
  iteration : Nat
  finalReport : Option Str
deriving DecidableEq, Repr

/-- The `while iteration < max_iterations` loop (agent.py lines 67-117).
`remaining` is the fuel `maxIterations - iteration`: since `iteration`
increases by exactly one per pass, `remaining = 0` holds exactly when
the guard `iteration < max_iterations` fails. -/
def loopFrom (env : Env) : Nat → Nat → List Message → RunResult
  | 0, iteration, msgs =>
      { messages := msgs, iteration := iteration, finalReport := none }
  | remaining + 1, iteration, msgs =>
      let iter := iteration + 1
      let response := env.model msgs
      let msgs2 := msgs ++ [Message.assistant response.text response.toolCalls]
      if response.toolCalls.isEmpty then
        { messages := msgs2, iteration := iter, finalReport := some response.text }
      else
        loopFrom env remaining iter (runToolCalls env msgs2 response.toolCalls)

/-- `run_audit`, from the initial history onwards (agent.py lines 56-117). -/
def run_audit (env : Env) (sysText humanText : Str) : RunResult :=
  loopFrom env maxIterations 0
    [Message.system sysText, Message.human humanText]

/-- The final check `if iteration >= max_iterations` (agent.py lines
119-120): `true` exactly when the stuck-in-a-loop diagnostic is printed. -/
def stuckDiagnostic (r : RunResult) : Bool := maxIterations ≤ r.iteration

/-- Number of assistant messages in a history. -/
def countAssistant : List Message → Nat
  | [] => 0
  | Message.assistant _ _ :: rest => countAssistant rest + 1
  | _ :: rest => countAssistant rest

/-! ### Helper lemmas -/

theorem countAssistant_append (a b : List Message) :
    countAssistant (a ++ b) = countAssistant a + countAssistant b := by
  induction a with
  | nil => simp [countAssistant]
  | cons m rest ih =>
      cases m <;> simp [countAssistant, ih]
      omega

theorem countAssistant_runToolCalls (env : Env) (msgs : List Message)
    (tcs : List ToolCallRequest) :
    countAssistant (runToolCalls env msgs tcs) = countAssistant msgs := by
  induction tcs generalizing msgs with
  | nil => simp [runToolCalls]
  | cons tc rest ih =>
      simp [runToolCalls, ih, countAssistant_append, countAssistant]

theorem loopFrom_countAssistant (env : Env) (remaining iteration : Nat)
    (msgs : List Message) :
    countAssistant (loopFrom env remaining iteration msgs).messages ≤
      countAssistant msgs + remaining := by
  induction remaining generalizing iteration msgs with
  | zero => simp [loopFrom]
  | succ n ih =>
      simp only [loopFrom]
      by_cases h : (env.model msgs).toolCalls.isEmpty
      · simp [h, countAssistant_append, countAssistant]
      · simp only [h, if_false]
        calc countAssistant (loopFrom env n (iteration + 1)
                (runToolCalls env
                  (msgs ++ [Message.assistant (env.model msgs).text (env.model msgs).toolCalls])
                  (env.model msgs).toolCalls)).messages
            ≤ countAssistant (runToolCalls env
                (msgs ++ [Message.assistant (env.model msgs).text (env.model msgs).toolCalls])
                (env.model msgs).toolCalls) + n := ih _ _
          _ = countAssistant msgs + 1 + n := by
              simp [countAssistant_runToolCalls, countAssistant_append, countAssistant]
          _ ≤ countAssistant msgs + (n + 1) := by omega

theorem truncateContent_length_le (s : Str) :
    (truncateContent s).length ≤ truncLimit + truncMarker.length := by
  unfold truncateContent
  by_cases h : truncLimit < s.length
  · simp [h, List.length_take]
  · simp [h]
    omega

/-! ### Claim theorems -/

/-- C1: the dispatch loop appends, for an assistant message with tool calls
`tcs`, exactly `tcs.length` tool-result messages to the history, in the
same relative order as the requests, the i-th carrying
`correlationId = tcs[i].id` and `toolName = tcs[i].name`.  In `loopFrom`
this extended history is exactly the input of the next model invocation. -/
theorem dispatch_pairs_results (env : Env) (msgs : List Message)
    (tcs : List ToolCallRequest) :
    ∃ contents : List Str, contents.length = tcs.length ∧
      runToolCalls env msgs tcs =
        msgs ++ List.zipWith (fun tc c => Message.toolResult tc.id tc.name c) tcs contents := by
  induction tcs generalizing msgs with
  | nil => exact ⟨[], rfl, by simp [runToolCalls]⟩
  | cons tc rest ih =>
      obtain ⟨cs, hlen, heq⟩ :=
        ih (msgs ++ [Message.toolResult tc.id tc.name (processResult (env.callTool msgs tc))])
      refine ⟨processResult (env.callTool msgs tc) :: cs, by simp [hlen], ?_⟩
      simp only [runToolCalls, heq, List.zipWith]
      simp

/-- C2: over any run, the number of assistant messages ever appended to the
history is bounded by `max_iterations = 10`: each loop pass appends exactly
one and the body runs at most ten times. -/
theorem assistant_messages_bounded (env : Env) (sysText humanText : Str) :
    countAssistant (run_audit env sysText humanText).messages ≤ maxIterations := by
  have h := loopFrom_countAssistant env maxIterations 0
    [Message.system sysText, Message.human humanText]
  simpa [run_audit, countAssistant] using h

/-- C5: the truncation step is idempotent and its output length is at most
`20000` plus the length of the fixed marker. -/
theorem truncation_idempotent_and_bounded (s : Str) :
    truncateContent (truncateContent s) = truncateContent s ∧
    (truncateContent s).length ≤ truncLimit + truncMarker.length := by
  refine ⟨?_, truncateContent_length_le s⟩
  unfold truncateContent
  by_cases h : truncLimit < s.length
  · have hlen : (s.take truncLimit ++ truncMarker).length =
        truncLimit + truncMarker.length := by
      simp [List.length_take]
      omega
    have hmarker : 0 < truncMarker.length := by decide
    have hcond : truncLimit < (s.take truncLimit ++ truncMarker).length := by omega
    simp only [h, if_true, hcond]
    have htake : (s.take truncLimit ++ truncMarker).take truncLimit = s.take truncLimit := by
      rw [List.take_append_of_le_length (by simp [List.length_take]; omega)]
      simp [List.take_take]
    rw [htake]
  · simp [h]

/-- A tool-call request used in concrete runs below. -/
def tcClick : ToolCallRequest := { id := str "c1", name := str "click", args := [] }

/-- A model that issues one tool call on each of its first nine
invocations and answers with a final text report on the tenth; tools
always succeed with a short textual result. -/
def envTenth : Env where
  model msgs :=
    if countAssistant msgs < 9 then { text := [], toolCalls := [tcClick] }
    else { text := str "FINAL REPORT", toolCalls := [] }
  callTool _ _ := Except.ok (some [ContentItem.textual (str "ok")])

/-- C3 (code bug): when the model produces its final text answer exactly at
iteration 10, the run terminates with a DONE report, yet
`iteration >= max_iterations` holds after the loop, so the code also
prints the stuck-in-a-loop diagnostic on this DONE run. -/
theorem stuck_diagnostic_on_done_run :
    (run_audit envTenth (str "sys") (str "task")).finalReport = some (str "FINAL REPORT") ∧
    stuckDiagnostic (run_audit envTenth (str "sys") (str "task")) = true := by
  constructor <;> rfl

/-- C4: when a tool invocation raises with message `e`, the dispatch loop
does not abort: it appends a tool-result message whose content is exactly
the error prefix followed by `e`, and proceeds with the remaining
requested tool calls. -/
theorem error_result_continues (env : Env) (msgs : List Message)
    (tc : ToolCallRequest) (rest : List ToolCallRequest) (e : Str)
    (h : env.callTool msgs tc = Except.error e) :
    runToolCalls env msgs (tc :: rest) =
      runToolCalls env (msgs ++ [Message.toolResult tc.id tc.name (errorPrefix ++ e)]) rest := by
  simp [runToolCalls, h, processResult]

/-- An environment whose tool calls always raise with message `"boom"`. -/
def envBoom : Env where
  model _ := { text := [], toolCalls := [] }
  callTool _ _ := Except.error (str "boom")

/-- Witness for C4 at a concrete failing tool call. -/
theorem error_result_continues_witness :
    runToolCalls envBoom [] [tcClick] =
      [Message.toolResult (str "c1") (str "click") (errorPrefix ++ str "boom")] := by
  have h := error_result_continues envBoom [] tcClick [] (str "boom") rfl
  simpa [runToolCalls, tcClick] using h

/-- An error message one character longer than the truncation threshold. -/
def longErr : Str := List.replicate (truncLimit + 1) 'e'

/-- An environment whose tool calls raise with the long message. -/
def envLongBoom : Env where
  model _ := { text := [], toolCalls := [] }
  callTool _ _ := Except.error longErr

/-- C6 counterexample: the truncation step sits inside the `try` block, so
an error substitution is never truncated: dispatching a tool call that
raises with a 20001-character message appends a tool-result message whose
content is longer than `20000 + truncMarker.length`. -/
theorem error_content_exceeds_bound :
    runToolCalls envLongBoom [] [tcClick] =
      [Message.toolResult (str "c1") (str "click") (errorPrefix ++ longErr)] ∧
    ¬ (errorPrefix ++ longErr).length ≤ truncLimit + truncMarker.length := by
  constructor
  · rfl
  · have h1 : errorPrefix.length = 22 := rfl
    have h2 : truncMarker.length = 15 := rfl
    have h3 : longErr.length = truncLimit + 1 := by
      simp [longErr]
    rw [List.length_append, h1, h2, h3]
    omega

/-- C6 amended: every tool-result content produced from a successful tool
invocation — the concatenated text or the no-text placeholder — has length
at most `20000 + truncMarker.length`; only the untruncated error
substitutions escape this bound. -/
theorem success_content_bounded (raw : RawResult) :
    (processResult (Except.ok raw)).length ≤ truncLimit + truncMarker.length := by
  simpa [processResult] using truncateContent_length_le (parseContent raw)

/-- An environment whose tool results carry a non-empty content list with
no textual item. -/
def envNoText : Env where
  model _ := { text := [], toolCalls := [] }
  callTool _ _ := Except.ok (some [ContentItem.nonTextual])

/-- C7 counterexample: a successful tool result whose content list is
non-empty but has no textual part yields the empty string as content —
the placeholder is substituted only when the content attribute is missing
or the list is empty, so the appended content here is `""`, not the
placeholder. -/
theorem nontextual_content_empty :
    runToolCalls envNoText [] [tcClick] =
      [Message.toolResult (str "c1") (str "click") []] ∧
    noTextPlaceholder ≠ [] := by
  exact ⟨rfl, by decide⟩

theorem concatText_eq_join (items : List ContentItem) :
    concatText items = (items.filterMap textOf).flatten := by
  induction items with
  | nil => simp [concatText]
  | cons i rest ih => cases i <;> simp [concatText, textOf, ih]

/-- C7 amended: for a successful invocation whose raw content list is
non-empty, the content before truncation is the in-order concatenation of
its textual parts (possibly the empty string when none are textual); the
no-text placeholder is substituted exactly when the content attribute is
absent or the content list is empty. -/
theorem content_concats_textual_parts (items : List ContentItem) (h : items ≠ []) :
    parseContent (some items) = concatText items ∧
    concatText items = (items.filterMap textOf).flatten ∧
    parseContent none = noTextPlaceholder ∧
    parseContent (some []) = noTextPlaceholder := by
  cases items with
  | nil => exact absurd rfl h
  | cons a l => exact ⟨by simp [parseContent], concatText_eq_join _, rfl, rfl⟩

/-- Witness for C7 amended at a one-item textual content list. -/
theorem content_concats_textual_parts_witness :
    parseContent (some [ContentItem.textual (str "Hello")]) =
      concatText [ContentItem.textual (str "Hello")] ∧
    concatText [ContentItem.textual (str "Hello")] =
      (([ContentItem.textual (str "Hello")]).filterMap textOf).flatten ∧
    parseContent none = noTextPlaceholder ∧
    parseContent (some []) = noTextPlaceholder :=
  content_concats_textual_parts [ContentItem.textual (str "Hello")] (by decide)

/-- C8: a successful tool result of 25000 characters `'a'` is processed to
exactly the first 20000 characters followed by the fixed marker; as
`processResult` is a pure function, this output is the same on every run
with this input. -/
theorem truncation_scenario_25000 :
    processResult (Except.ok (some [ContentItem.textual (List.replicate 25000 'a')])) =
      List.replicate truncLimit 'a' ++ truncMarker := by
  have h1 : ∀ t : Str, parseContent (some [ContentItem.textual t]) = t := by
    intro t
    simp [parseContent, concatText]
  have h2 : truncLimit < (List.replicate 25000 'a').length := by
    rw [List.length_replicate]
    norm_num [truncLimit]
  have hmin : min truncLimit 25000 = truncLimit := by
    norm_num [truncLimit]
  show truncateContent (parseContent (some [ContentItem.textual (List.replicate 25000 'a')])) =
    List.replicate truncLimit 'a' ++ truncMarker
  rw [h1]
  unfold truncateContent
  rw [if_pos h2, List.take_replicate, hmin]

/-- C9: if the model's first reply carries no tool calls, the run stops at
iteration 1 with the history `[system, human, assistant]` and reports the
reply's text verbatim. -/
theorem first_reply_no_tools_done (env : Env) (sysText humanText : Str)
    (h : (env.model [Message.system sysText, Message.human humanText]).toolCalls = []) :
    run_audit env sysText humanText =
      { messages := [Message.system sysText, Message.human humanText,
          Message.assistant (env.model [Message.system sysText, Message.human humanText]).text []],
        iteration := 1,
        finalReport :=
          some (env.model [Message.system sysText, Message.human humanText]).text } := by
  show loopFrom env (9 + 1) 0 [Message.system sysText, Message.human humanText] = _
  simp [loopFrom, h]

/-- A model that answers immediately with a text report. -/
def envDirect : Env where
  model _ := { text := str "report", toolCalls := [] }
  callTool _ _ := Except.ok none

/-- Witness for C9 at a concrete immediate-answer model. -/
theorem first_reply_no_tools_done_witness :
    run_audit envDirect (str "s") (str "t") =
      { messages := [Message.system (str "s"), Message.human (str "t"),
          Message.assistant (str "report") []],
        iteration := 1, finalReport := some (str "report") } := by
  have h := first_reply_no_tools_done envDirect (str "s") (str "t") rfl
  simpa [envDirect] using h

/-- C10: when a reply has both non-empty text and a non-empty tool-call
list, the loop appends the full reply (text included) to the history,
dispatches its tool calls, and continues with the next iteration — the
textual part is not reported as a final answer and the run does not
terminate on that pass, exactly as if the text were absent. -/
theorem text_with_tools_continues (env : Env) (remaining iteration : Nat)
    (msgs : List Message)
    (_htext : (env.model msgs).text ≠ [])
    (htools : (env.model msgs).toolCalls ≠ []) :
    loopFrom env (remaining + 1) iteration msgs =
      loopFrom env remaining (iteration + 1)
        (runToolCalls env
          (msgs ++ [Message.assistant (env.model msgs).text (env.model msgs).toolCalls])
          (env.model msgs).toolCalls) := by
  cases hl : (env.model msgs).toolCalls with
  | nil => exact absurd hl htools
  | cons a l => simp [loopFrom, hl]

/-- A model that replies with both a textual note and a tool call. -/
def envBothW : Env where
  model _ := { text := str "note", toolCalls := [tcClick] }
  callTool _ _ := Except.ok none

/-- Witness for C10 at a concrete text-plus-tool-call reply. -/
theorem text_with_tools_continues_witness :
    loopFrom envBothW 1 0 [Message.human (str "q")] =
      loopFrom envBothW 0 1
        (runToolCalls envBothW
          ([Message.human (str "q")] ++ [Message.assistant (str "note") [tcClick]])
          [tcClick]) := by
  have h := text_with_tools_continues envBothW 0 0 [Message.human (str "q")]
    (by decide) (by decide)
  simpa [envBothW] using h

end GdprAgent
